import Mathlib

/-!
Verification of `rock5-fan-control.py`, a fan-control daemon for a
single-board computer.  The development embeds the program's pure core:
the RPM read-and-reset estimator (`RPMReader`), the thermal policy
(`get_target_speed`), the temperature reader's fail-safe
(`read_temp`), the actuation path selection and duty computation
(`FanController`), the self-test schedule (`run_self_test`), and the
steady control loop's per-tick logging/actuation gates (`loopTick`).
Clock values returned by `time.time()` are modelled as rationals and
passed explicitly; sysfs reads and writes are modelled as explicit
inputs and `WriteAction` outputs.
-/

/-- Configuration constant `PWM_NODE_ADDR` (device-tree address of PWM14/15). -/
def PWM_NODE_ADDR : String := "febf0020"

/-- Configuration constant `POLL_INTERVAL` in seconds. -/
def POLL_INTERVAL : ℕ := 3

/-- Python `int()` applied to an exact rational value: truncation toward
zero, `Int.tdiv` of numerator by denominator. -/
def pyInt (q : ℚ) : ℤ := Int.tdiv q.num q.den

/-- Mutable state of an `RPMReader` instance: the pulse counter and the
timestamp of the start of the current measurement window — exactly the two
fields mutated under the instance lock. -/
structure RPMReader where
  pulse_count : ℕ
  last_time : ℚ
deriving Repr, DecidableEq

/-- One falling-edge event handled by `RPMReader._monitor_loop`:
`self.pulse_count += 1` under the lock. -/
def RPMReader.monitorEdge (r : RPMReader) : RPMReader :=
  { r with pulse_count := r.pulse_count + 1 }

/-- A run of `n` monitor-loop edge events delivered in sequence. -/
def RPMReader.monitorEdges (r : RPMReader) : ℕ → RPMReader
  | 0 => r
  | n + 1 => (r.monitorEdges n).monitorEdge

/-- The value computed by `RPMReader.get_rpm` from a captured count and
elapsed time: `0` when `dt == 0`, otherwise `int((count / 2.0) * (60.0 / dt))`
(two pulses are assumed per revolution). -/
def rpmValue (count : ℕ) (dt : ℚ) : ℤ :=
  if dt = 0 then 0 else pyInt (((count : ℚ) / 2) * (60 / dt))

/-- `RPMReader.get_rpm`, with the ambient clock value `now` passed
explicitly: captures the counter and the elapsed time since the previous
read, resets the counter to 0 and the timestamp to `now`, and returns the
truncated rate. -/
def RPMReader.get_rpm (r : RPMReader) (now : ℚ) : ℤ × RPMReader :=
  let dt := now - r.last_time
  let count := r.pulse_count
  (rpmValue count dt, { pulse_count := 0, last_time := now })

/-- `read_temp`: the thermal-zone file content in millidegrees when the read
succeeds (`none` models an acquisition failure), divided by 1000; the fixed
fail-safe value 75.0 on failure. -/
def read_temp (raw : Option ℤ) : ℚ :=
  match raw with
  | some millideg => (millideg : ℚ) / 1000
  | none => 75

/-- `get_target_speed`: the pure thermal policy mapping a temperature to a
speed level. -/
def get_target_speed (temp : ℚ) : ℤ :=
  if temp ≤ 40 then 1
  else if temp ≤ 50 then 2
  else if temp ≤ 60 then 3
  else 4

/-- A hardware write issued by `FanController.set_speed`: either a PWM
duty-cycle write or a write of the level integer to the fallback
cooling-device file. -/
inductive WriteAction where
  | pwmDuty (duty : ℤ)
  | coolingLevel (level : ℕ)
deriving Repr, DecidableEq

/-- A PWM chip as observed by `find_pwm_chip`: its sysfs path and, when the
`device/of_node` link exists, the resolved real path of that link. -/
structure PwmChip where
  path : String
  of_node : Option String
deriving Repr, DecidableEq

/-- `FanController.find_pwm_chip`: scan the chips and return the first one
whose `of_node` real path contains `PWM_NODE_ADDR`; `none` when no chip
matches. -/
def find_pwm_chip : List PwmChip → Option String
  | [] => none
  | chip :: rest =>
    match chip.of_node with
    | some real_path =>
      if real_path.containsSubstr PWM_NODE_ADDR then some chip.path
      else find_pwm_chip rest
    | none => find_pwm_chip rest

/-- State of a `FanController` after `__init__`: the actuation path chosen
by `find_pwm_chip` and the configured PWM period. -/
structure FanController where
  pwm_path : Option String
  period : ℕ
deriving Repr, DecidableEq

/-- `FanController.__init__` given the visible PWM chips: the actuation path
is resolved once by `find_pwm_chip` and the period fixed at 40000 ns
(25 kHz); neither field is ever reassigned afterwards. -/
def FanController.mk_init (chips : List PwmChip) : FanController :=
  { pwm_path := find_pwm_chip chips, period := 40000 }

/-- The duty cycle computed inside `set_speed` on the PWM path:
`int(self.period * (speed_level / 4.0))`, then forced to exactly 0 when
`speed_level == 0`. -/
def pwm_duty (period : ℕ) (speed_level : ℕ) : ℤ :=
  let duty_cycle := pyInt ((period : ℚ) * ((speed_level : ℚ) / 4))
  if speed_level = 0 then 0 else duty_cycle

/-- `FanController.set_speed`: a PWM duty-cycle write when a chip was found
at construction, otherwise a write of the level integer to the fallback
cooling-device file. -/
def FanController.set_speed (c : FanController) (speed_level : ℕ) : WriteAction :=
  match c.pwm_path with
  | some _ => .pwmDuty (pwm_duty c.period speed_level)
  | none => .coolingLevel speed_level

/-- An observable event of `FanController.run_self_test`. -/
inductive TestEvent where
  | setLevel (level : ℕ)
  | sleepSec (seconds : ℕ)
  | sampleRpm (level : ℕ)
deriving Repr, DecidableEq

/-- `FanController.run_self_test`: for each level 0..4, set the level, then
five times sleep 2 seconds and — when an `rpm_reader` was passed — sample
and log its rate. -/
def run_self_test (has_rpm_reader : Bool) : List TestEvent :=
  (List.range 5).flatMap fun level =>
    TestEvent.setLevel level ::
      ((List.range 5).flatMap fun _ =>
        TestEvent.sleepSec 2 ::
          (if has_rpm_reader then [TestEvent.sampleRpm level] else []))

/-- The levels set, in order, by a self-test trace. -/
def levelsSet (trace : List TestEvent) : List ℕ :=
  trace.filterMap fun e =>
    match e with
    | .setLevel l => some l
    | _ => none

/-- Total seconds slept while `level` is the most recently set level
(`cur` tracks the level currently applied, `none` before any `setLevel`). -/
def dwellSleepAux (level : ℕ) : List TestEvent → Option ℕ → ℕ
  | [], _ => 0
  | .setLevel l :: rest, _ => dwellSleepAux level rest (some l)
  | .sleepSec s :: rest, cur =>
    (if cur = some level then s else 0) + dwellSleepAux level rest cur
  | .sampleRpm _ :: rest, cur => dwellSleepAux level rest cur

/-- Total seconds a self-test trace dwells on a given level. -/
def dwellSleep (trace : List TestEvent) (level : ℕ) : ℕ :=
  dwellSleepAux level trace none

/-- Number of RPM samples a trace takes while a given level is applied. -/
def sampleCount (trace : List TestEvent) (level : ℕ) : ℕ :=
  (trace.filter fun e => e = TestEvent.sampleRpm level).length

/-- Every RPM sample in the trace comes immediately after a 2-second sleep:
the sampling happens at the fixed 2-second sub-interval. -/
def samplesTimed : List TestEvent → Bool
  | [] => true
  | TestEvent.sampleRpm _ :: _ => false
  | TestEvent.sleepSec s :: TestEvent.sampleRpm _ :: rest =>
    (s = 2) && samplesTimed rest
  | _ :: rest => samplesTimed rest

/-- Mutable state of the steady loop in `main`: the currently applied speed
level and the last logged rate. -/
structure LoopState where
  current_speed : ℤ
  last_rpm : ℤ
deriving Repr, DecidableEq

/-- The loop state entering the steady loop: `current_speed = -1` and
`last_rpm = -1`. -/
def initLoopState : LoopState := { current_speed := -1, last_rpm := -1 }

/-- Observable outcome of one steady-loop tick: whether a log line was
printed, whether a hardware write was issued, and the state carried to the
next tick. -/
structure TickResult where
  didLog : Bool
  didWrite : Bool
  state : LoopState
deriving Repr, DecidableEq

/-- One iteration of the steady `while True` loop in `main`, with the tick's
inputs — the temperature just read and the rate just sampled — passed
explicitly.  Logging happens when the level changed or the rate moved by
more than 100; the hardware write and the `current_speed` update happen only
when the level changed; `last_rpm` is updated exactly when a line is
logged. -/
def loopTick (s : LoopState) (temp : ℚ) (rpm : ℤ) : TickResult :=
  let target_speed := get_target_speed temp
  if target_speed ≠ s.current_speed ∨ |rpm - s.last_rpm| > 100 then
    { didLog := true
      didWrite := decide (target_speed ≠ s.current_speed)
      state :=
        { current_speed :=
            if target_speed ≠ s.current_speed then target_speed
            else s.current_speed
          last_rpm := rpm } }
  else
    { didLog := false, didWrite := false, state := s }

/-- Run the steady loop over a list of per-tick inputs. -/
def runLoop (s : LoopState) : List (ℚ × ℤ) → LoopState
  | [] => s
  | (temp, rpm) :: rest => runLoop (loopTick s temp rpm).state rest

/-- Number of hardware writes the steady loop issues over a list of
per-tick inputs. -/
def countWrites (s : LoopState) : List (ℚ × ℤ) → ℕ
  | [] => 0
  | (temp, rpm) :: rest =>
    (if (loopTick s temp rpm).didWrite then 1 else 0) +
      countWrites (loopTick s temp rpm).state rest

/-- Python `int()` agrees with the floor on nonnegative rationals. -/
lemma pyInt_eq_floor (q : ℚ) (h : 0 ≤ q) : pyInt q = ⌊q⌋ := by
  rw [Rat.floor_def]
  exact Int.tdiv_eq_ediv (Rat.num_nonneg.mpr h) (Int.natCast_nonneg q.den)

/-- A run of `n` edge events adds exactly `n` to the pulse counter and
leaves the window timestamp untouched. -/
lemma monitorEdges_count (s : RPMReader) (n : ℕ) :
    (s.monitorEdges n).pulse_count = s.pulse_count + n ∧
    (s.monitorEdges n).last_time = s.last_time := by
  induction n with
  | zero => simp [RPMReader.monitorEdges]
  | succ k ih =>
    simp [RPMReader.monitorEdges, RPMReader.monitorEdge, ih.1, ih.2, Nat.add_assoc]

/-- The thermal policy only outputs the levels 1, 2, 3 and 4. -/
lemma get_target_speed_cases (t : ℚ) :
    get_target_speed t = 1 ∨ get_target_speed t = 2 ∨
      get_target_speed t = 3 ∨ get_target_speed t = 4 := by
  unfold get_target_speed
  split_ifs <;> simp

/-- The thermal policy never outputs a level below 1. -/
lemma one_le_get_target_speed (t : ℚ) : 1 ≤ get_target_speed t := by
  unfold get_target_speed
  split_ifs <;> norm_num

/-- Claim C1: `get_rpm` is an exactly-once read-and-reset.  If `n` edge
increments are delivered between two `get_rpm` calls with no other call in
between, the second call computes its rate from exactly those `n` pulses and
the elapsed time between the two calls, and leaves the counter at 0 and the
timestamp at the read instant. -/
theorem rpm_read_reset_exactly_once (r : RPMReader) (t₁ t₂ : ℚ) (n : ℕ) :
    ((r.get_rpm t₁).2.monitorEdges n).pulse_count = n ∧
    (((r.get_rpm t₁).2.monitorEdges n).get_rpm t₂).1 = rpmValue n (t₂ - t₁) ∧
    (((r.get_rpm t₁).2.monitorEdges n).get_rpm t₂).2.pulse_count = 0 ∧
    (((r.get_rpm t₁).2.monitorEdges n).get_rpm t₂).2.last_time = t₂ := by
  have h0 : (r.get_rpm t₁).2 = { pulse_count := 0, last_time := t₁ } := rfl
  obtain ⟨hc, ht⟩ :=
    monitorEdges_count { pulse_count := 0, last_time := t₁ } n
  rw [h0]
  refine ⟨?_, ?_, rfl, rfl⟩
  · rw [hc]
    simp
  · simp [RPMReader.get_rpm, hc, ht]

/-- Claim C2, counterexample: with one captured pulse and elapsed time 7
seconds, `get_rpm` returns the integer 4, not the exact rate
(1/2) · (60/7) = 30/7 the claim asserts. -/
theorem get_rpm_truncates_counterexample :
    (((RPMReader.mk 1 0).get_rpm 7).1 : ℚ) ≠ ((1 : ℚ) / 2) * (60 / 7) := by
  have hne : (7 : ℚ) - 0 ≠ 0 := by norm_num
  have hval : ((RPMReader.mk 1 0).get_rpm 7).1 =
      pyInt ((((1 : ℕ) : ℚ) / 2) * (60 / ((7 : ℚ) - 0))) := by
    simp [RPMReader.get_rpm, rpmValue, hne]
  rw [hval, pyInt_eq_floor _ (by norm_num)]
  norm_num

/-- Claim C2, amended: when the elapsed time is zero `get_rpm` returns 0;
when it is positive `get_rpm` returns the integer truncation (floor) of the
rate (count/2) · (60/dt), hence exactly that rate whenever it is an
integer. -/
theorem get_rpm_rate_formula (r : RPMReader) (now : ℚ) :
    (now - r.last_time = 0 → (r.get_rpm now).1 = 0) ∧
    (0 < now - r.last_time →
      (r.get_rpm now).1 =
        ⌊((r.pulse_count : ℚ) / 2) * (60 / (now - r.last_time))⌋ ∧
      ∀ k : ℤ,
        ((r.pulse_count : ℚ) / 2) * (60 / (now - r.last_time)) = (k : ℚ) →
        (r.get_rpm now).1 = k) := by
  constructor
  · intro h
    simp [RPMReader.get_rpm, rpmValue, h]
  · intro h
    have hne : now - r.last_time ≠ 0 := ne_of_gt h
    have hval : (r.get_rpm now).1 =
        pyInt (((r.pulse_count : ℚ) / 2) * (60 / (now - r.last_time))) := by
      simp [RPMReader.get_rpm, rpmValue, hne]
    have hnn : 0 ≤ ((r.pulse_count : ℚ) / 2) * (60 / (now - r.last_time)) :=
      mul_nonneg (by positivity) (div_nonneg (by norm_num) (le_of_lt h))
    refine ⟨by rw [hval, pyInt_eq_floor _ hnn], fun k hk => ?_⟩
    rw [hval, pyInt_eq_floor _ hnn, hk, Int.floor_intCast]

/-- Witness for the amended claim C2 at count 2, window from 0 to 3. -/
theorem get_rpm_rate_formula_witness :
    (0 : ℚ) < 3 - (RPMReader.mk 2 0).last_time ∧
    ((RPMReader.mk 2 0).get_rpm 3).1 =
      ⌊(((RPMReader.mk 2 0).pulse_count : ℚ) / 2) *
        (60 / (3 - (RPMReader.mk 2 0).last_time))⌋ :=
  ⟨by show (0 : ℚ) < 3 - 0; norm_num,
   ((get_rpm_rate_formula (RPMReader.mk 2 0) 3).2
      (by show (0 : ℚ) < 3 - 0; norm_num)).1⟩

/-- Claim C3: the thermal policy is the piecewise mapping with inclusive
upper band bounds — level 1 up to 40, level 2 up to 50, level 3 up to 60,
level 4 above — with the stated boundary values, and never outputs 0. -/
theorem thermal_policy_bands :
    (∀ t : ℚ, t ≤ 40 → get_target_speed t = 1) ∧
    (∀ t : ℚ, 40 < t → t ≤ 50 → get_target_speed t = 2) ∧
    (∀ t : ℚ, 50 < t → t ≤ 60 → get_target_speed t = 3) ∧
    (∀ t : ℚ, 60 < t → get_target_speed t = 4) ∧
    get_target_speed 40 = 1 ∧ get_target_speed (401 / 10) = 2 ∧
    get_target_speed 60 = 3 ∧ get_target_speed (601 / 10) = 4 ∧
    (∀ t : ℚ, get_target_speed t ≠ 0) := by
  refine ⟨?_, ?_, ?_, ?_, ?_, ?_, ?_, ?_, ?_⟩
  · intro t h
    simp [get_target_speed, h]
  · intro t h1 h2
    unfold get_target_speed
    rw [if_neg (not_le.mpr h1), if_pos h2]
  · intro t h1 h2
    unfold get_target_speed
    rw [if_neg (not_le.mpr (by linarith)), if_neg (not_le.mpr h1), if_pos h2]
  · intro t h
    unfold get_target_speed
    rw [if_neg (not_le.mpr (by linarith)), if_neg (not_le.mpr (by linarith)),
      if_neg (not_le.mpr h)]
  · norm_num [get_target_speed]
  · norm_num [get_target_speed]
  · norm_num [get_target_speed]
  · norm_num [get_target_speed]
  · intro t
    rcases get_target_speed_cases t with h | h | h | h <;> rw [h] <;> norm_num

/-- Witness for claim C3 with one temperature inside each band. -/
theorem thermal_policy_bands_witness :
    get_target_speed 35 = 1 ∧ get_target_speed 45 = 2 ∧
    get_target_speed 55 = 3 ∧ get_target_speed 61 = 4 :=
  ⟨thermal_policy_bands.1 35 (by norm_num),
   thermal_policy_bands.2.1 45 (by norm_num) (by norm_num),
   thermal_policy_bands.2.2.1 55 (by norm_num) (by norm_num),
   thermal_policy_bands.2.2.2.1 61 (by norm_num)⟩

/-- While the applied level already equals the common target level of all
remaining ticks, the loop issues no further hardware write, whatever the
sampled rates do to the logging state. -/
lemma countWrites_steady (L : ℤ) (inputs : List (ℚ × ℤ))
    (h : ∀ p ∈ inputs, get_target_speed p.1 = L) :
    ∀ lr : ℤ, countWrites { current_speed := L, last_rpm := lr } inputs = 0 := by
  induction inputs with
  | nil =>
    intro lr
    simp [countWrites]
  | cons p rest ih =>
    intro lr
    obtain ⟨temp, rpm⟩ := p
    have hp : get_target_speed temp = L := h (temp, rpm) (List.mem_cons_self _ _)
    have hrest : ∀ q ∈ rest, get_target_speed q.1 = L :=
      fun q hq => h q (List.mem_cons_of_mem _ hq)
    by_cases h2 : |rpm - lr| > 100 <;>
      simp [countWrites, loopTick, hp, h2, ih hrest]

/-- Claim C4: a hardware write happens in a tick exactly when the computed
target level differs from the applied level, and a temperature sequence that
stays within one policy band produces exactly one hardware write over the
whole steady run, at band entry. -/
theorem actuation_only_on_level_change :
    (∀ (s : LoopState) (temp : ℚ) (rpm : ℤ),
      (loopTick s temp rpm).didWrite = true ↔
        get_target_speed temp ≠ s.current_speed) ∧
    (∀ (L : ℤ) (inputs : List (ℚ × ℤ)), inputs ≠ [] →
      (∀ p ∈ inputs, get_target_speed p.1 = L) →
      countWrites initLoopState inputs = 1) := by
  constructor
  · intro s temp rpm
    by_cases h1 : get_target_speed temp ≠ s.current_speed <;>
      by_cases h2 : |rpm - s.last_rpm| > 100 <;>
        simp [loopTick, h1, h2]
  · intro L inputs hne h
    cases inputs with
    | nil => exact absurd rfl hne
    | cons p rest =>
      obtain ⟨temp, rpm⟩ := p
      have hp : get_target_speed temp = L := h (temp, rpm) (List.mem_cons_self _ _)
      have hL : 1 ≤ L := hp ▸ one_le_get_target_speed temp
      have hne2 : L ≠ (-1 : ℤ) := by omega
      have hrest : ∀ q ∈ rest, get_target_speed q.1 = L :=
        fun q hq => h q (List.mem_cons_of_mem _ hq)
      simp [countWrites, loopTick, initLoopState, hp, hne2,
        countWrites_steady L rest hrest]

/-- Witness for claim C4: one tick with temperature 30 (band of level 1)
starting from the initial loop state issues exactly one write. -/
theorem actuation_only_on_level_change_witness :
    countWrites initLoopState [((30 : ℚ), (0 : ℤ))] = 1 :=
  actuation_only_on_level_change.2 1 [(30, 0)] (by simp)
    (by
      intro p hp
      simp only [List.mem_singleton] at hp
      subst hp
      norm_num [get_target_speed])

/-- Claim C5, counterexample: with period 40002 — not divisible by 4 — and
level 1, `set_speed` writes duty 10000, while period × (level/4) is the
non-integer 10000.5, so the written duty does not equal period × (level/4). -/
theorem set_speed_duty_truncates_counterexample :
    (FanController.mk (some "pwmchip0") 40002).set_speed 1 =
      WriteAction.pwmDuty 10000 ∧
    ((10000 : ℤ) : ℚ) ≠ (40002 : ℚ) * ((1 : ℚ) / 4) := by
  constructor
  · show WriteAction.pwmDuty (pwm_duty 40002 1) = WriteAction.pwmDuty 10000
    have hd : pwm_duty 40002 1 = 10000 := by
      unfold pwm_duty
      simp only [OfNat.ofNat_ne_zero, if_false]
      rw [pyInt_eq_floor _ (by norm_num)]
      norm_num
    rw [hd]
  · norm_num

/-- Claim C5, amended: on the PWM path the written duty is the integer
truncation ⌊period × (level/4)⌋ — equal to period × level / 4 exactly
whenever 4 divides period × level — and level 0 always yields duty exactly
0, for every configured period. -/
theorem set_speed_duty_formula (period speed_level : ℕ) (path : String) :
    (FanController.mk (some path) period).set_speed speed_level =
      WriteAction.pwmDuty ⌊(period : ℚ) * ((speed_level : ℚ) / 4)⌋ ∧
    (FanController.mk (some path) period).set_speed 0 =
      WriteAction.pwmDuty 0 ∧
    (4 ∣ period * speed_level →
      (FanController.mk (some path) period).set_speed speed_level =
        WriteAction.pwmDuty ((period * speed_level / 4 : ℕ) : ℤ)) := by
  have hduty : pwm_duty period speed_level =
      ⌊(period : ℚ) * ((speed_level : ℚ) / 4)⌋ := by
    by_cases h0 : speed_level = 0
    · subst h0
      simp [pwm_duty]
    · have hnn : (0 : ℚ) ≤ (period : ℚ) * ((speed_level : ℚ) / 4) := by
        positivity
      simp [pwm_duty, h0, pyInt_eq_floor _ hnn]
  have hset : (FanController.mk (some path) period).set_speed speed_level =
      WriteAction.pwmDuty (pwm_duty period speed_level) := rfl
  have hzero : (FanController.mk (some path) period).set_speed 0 =
      WriteAction.pwmDuty 0 := by
    show WriteAction.pwmDuty (pwm_duty period 0) = WriteAction.pwmDuty 0
    simp [pwm_duty]
  refine ⟨by rw [hset, hduty], hzero, fun hdvd => ?_⟩
  obtain ⟨k, hk⟩ := hdvd
  have hcast : (period : ℚ) * ((speed_level : ℚ) / 4) =
      ((period * speed_level : ℕ) : ℚ) / 4 := by
    push_cast
    ring
  have hfloor : ⌊(period : ℚ) * ((speed_level : ℚ) / 4)⌋ = (k : ℤ) := by
    rw [hcast, hk]
    push_cast
    rw [mul_comm, mul_div_assoc]
    norm_num
  have hnat : period * speed_level / 4 = k := by
    rw [hk]
    exact Nat.mul_div_cancel_left k (by norm_num)
  rw [hset, hduty, hfloor, hnat]

/-- Witness for the amended claim C5 at the configured period 40000 and
level 3: the exact-division case gives duty 40000·3/4. -/
theorem set_speed_duty_formula_witness :
    (4 : ℕ) ∣ 40000 * 3 ∧
    (FanController.mk (some "pwmchip0") 40000).set_speed 3 =
      WriteAction.pwmDuty ((40000 * 3 / 4 : ℕ) : ℤ) :=
  ⟨by norm_num, (set_speed_duty_formula 40000 3 "pwmchip0").2.2 (by norm_num)⟩

/-- Claim C6: a failed temperature acquisition yields the fixed fail-safe
reading 75.0 instead of an error, and the thermal policy maps that reading
to the highest speed level 4, so a failed read never halts the loop. -/
theorem read_temp_fail_safe :
    read_temp none = 75 ∧ get_target_speed (read_temp none) = 4 := by
  constructor
  · rfl
  · norm_num [read_temp, get_target_speed]

/-- Claim C7: when `find_pwm_chip` returns `none`, the controller built at
construction keeps `pwm_path = none` forever, and every `set_speed` call
writes the level integer to the fallback cooling-device file — never a PWM
duty cycle. -/
theorem no_pwm_chip_uses_fallback (chips : List PwmChip)
    (h : find_pwm_chip chips = none) :
    (FanController.mk_init chips).pwm_path = none ∧
    ∀ speed_level : ℕ,
      (FanController.mk_init chips).set_speed speed_level =
        WriteAction.coolingLevel speed_level ∧
      ∀ duty : ℤ,
        (FanController.mk_init chips).set_speed speed_level ≠
          WriteAction.pwmDuty duty := by
  have hp : (FanController.mk_init chips).pwm_path = none := by
    simp [FanController.mk_init, h]
  refine ⟨hp, fun speed_level => ?_⟩
  have hs : (FanController.mk_init chips).set_speed speed_level =
      WriteAction.coolingLevel speed_level := by
    simp [FanController.set_speed, hp]
  exact ⟨hs, fun duty => by rw [hs]; simp⟩

/-- Witness for claim C7: a chip list whose single chip exposes no
`of_node` link is not matched, and `set_speed 2` then writes level 2 to the
fallback cooling device. -/
theorem no_pwm_chip_uses_fallback_witness :
    (FanController.mk_init [PwmChip.mk "/sys/class/pwm/pwmchip0" none]).set_speed 2 =
      WriteAction.coolingLevel 2 :=
  ((no_pwm_chip_uses_fallback [PwmChip.mk "/sys/class/pwm/pwmchip0" none]
      (by rfl)).2 2).1

/-- Claim C8: a log line is emitted in a tick exactly when the target level
differs from the applied level or the sampled rate moved by more than 100
from the last logged rate, and the last-logged-rate reference is updated
exactly when a line is logged. -/
theorem logging_gate (s : LoopState) (temp : ℚ) (rpm : ℤ) :
    ((loopTick s temp rpm).didLog = true ↔
      (get_target_speed temp ≠ s.current_speed ∨ |rpm - s.last_rpm| > 100)) ∧
    (loopTick s temp rpm).state.last_rpm =
      (if (loopTick s temp rpm).didLog = true then rpm else s.last_rpm) := by
  by_cases h1 : get_target_speed temp ≠ s.current_speed <;>
    by_cases h2 : |rpm - s.last_rpm| > 100 <;>
      simp [loopTick, h1, h2]

/-- Claim C9: the self-test sets exactly the five levels 0,1,2,3,4 in
increasing order, dwells 10 seconds on each, takes five RPM samples during
each dwell, and every sample follows the fixed 2-second sub-interval. -/
theorem self_test_schedule :
    levelsSet (run_self_test true) = [0, 1, 2, 3, 4] ∧
    dwellSleep (run_self_test true) 0 = 10 ∧
    dwellSleep (run_self_test true) 1 = 10 ∧
    dwellSleep (run_self_test true) 2 = 10 ∧
    dwellSleep (run_self_test true) 3 = 10 ∧
    dwellSleep (run_self_test true) 4 = 10 ∧
    sampleCount (run_self_test true) 0 = 5 ∧
    sampleCount (run_self_test true) 1 = 5 ∧
    sampleCount (run_self_test true) 2 = 5 ∧
    sampleCount (run_self_test true) 3 = 5 ∧
    sampleCount (run_self_test true) 4 = 5 ∧
    samplesTimed (run_self_test true) = true := by
  decide

/-- Claim C10: on the first steady tick the applied level is the sentinel
-1, which lies outside the policy's output range {1,2,3,4}, so for every
temperature and rate input the first tick both writes the hardware and logs
a line. -/
theorem first_tick_always_acts (temp : ℚ) (rpm : ℤ) :
    initLoopState.current_speed = -1 ∧
    (get_target_speed temp = 1 ∨ get_target_speed temp = 2 ∨
      get_target_speed temp = 3 ∨ get_target_speed temp = 4) ∧
    get_target_speed temp ≠ initLoopState.current_speed ∧
    (loopTick initLoopState temp rpm).didWrite = true ∧
    (loopTick initLoopState temp rpm).didLog = true := by
  have h1 : 1 ≤ get_target_speed temp := one_le_get_target_speed temp
  have hne : get_target_speed temp ≠ (-1 : ℤ) := by omega
  refine ⟨rfl, get_target_speed_cases temp, hne, ?_, ?_⟩ <;>
    simp [loopTick, initLoopState, hne]
